import Mathlib

/-
Verification of the news_summarizer repository: a shallow embedding of its
credibility scorer, RAG ingestion/query layer, news fetcher, summarizer and
bias analyzer, with theorems about the properties stated in the spec.

Python strings are modelled as Lean `String`; the Python primitives used by
the code (`in`, `.lower()`, `.strip()`, truthiness) are embedded as
executable functions over the underlying character list.
-/

/-- Python `w in t` (substring containment). -/
def pyIn (w t : String) : Bool :=
  t.data.tails.any fun suf => w.data.isPrefixOf suf

/-- Python `s.lower()`. -/
def pyLower (s : String) : String := ⟨s.data.map Char.toLower⟩

/-- Python `s.strip()`: whitespace removed from both ends. -/
def pyStrip (s : String) : String :=
  ⟨((s.data.dropWhile Char.isWhitespace).reverse.dropWhile Char.isWhitespace).reverse⟩

/-- Python `len(s)` (number of characters). -/
def pyLen (s : String) : Nat := s.data.length

/-- Python truthiness of an optional string field: `key in d and d[key]`.
`none` models an absent key, `some ""` an empty value; both are falsy. -/
def truthy : Option String → Bool
  | none => false
  | some s => !s.data.isEmpty

theorem truthy_eq_getD (o : Option String) :
    truthy o = !(o.getD "").data.isEmpty := by
  cases o <;> rfl

/-- Generic shape of the Python `for x in l: acc.append/extend (g x)` loop. -/
theorem foldl_append_eq_flatMap {α β : Type} (g : α → List β) (l : List α) (acc : List β) :
    l.foldl (fun acc a => acc ++ g a) acc = acc ++ l.flatMap g := by
  induction l generalizing acc with
  | nil => simp
  | cons a l ih => simp [List.foldl, ih]

namespace Credibility

/-! Embedding of `bias_detection/credibility_scorer.py`, `_update_source_history`
(lines 277-317): per-source history entries, the 10-entry cap and the
running average. Timestamps are not modelled (they do not affect the data). -/

/-- One entry appended to `credibility_data["sources"][source]["history"]`. -/
structure HistoryEntry where
  credibility_score : ℚ
  article_count : ℕ
deriving DecidableEq, Repr

/-- The per-source record stored in `credibility_data["sources"][source]`. -/
structure SourceRecord where
  history : List HistoryEntry
  average_credibility : ℚ
  article_count : ℕ
deriving DecidableEq, Repr

/-- The record created for a source not seen before (lines 283-289). -/
def initialSourceRecord : SourceRecord :=
  { history := [], average_credibility := 0, article_count := 0 }

/-- Lines 301-303: `history = history[-10:]` once more than 10 entries exist. -/
def truncHistory (h : List HistoryEntry) : List HistoryEntry :=
  if 10 < h.length then h.drop (h.length - 10) else h

/-- One call of `_update_source_history`: append the new entry, cap the
history at the last 10 entries, recompute the average over the retained
entries, and add the article count (lines 291-311). -/
def updateSourceHistory (rec : SourceRecord) (entry : HistoryEntry) : SourceRecord :=
  { history := truncHistory (rec.history ++ [entry])
    average_credibility :=
      ((truncHistory (rec.history ++ [entry])).map (fun e => e.credibility_score)).sum
        / ((truncHistory (rec.history ++ [entry])).length : ℚ)
    article_count := rec.article_count + entry.article_count }

theorem history_after_foldl (entries : List HistoryEntry) :
    (entries.foldl updateSourceHistory initialSourceRecord).history
      = entries.drop (entries.length - 10) := by
  induction entries using List.reverseRecOn with
  | nil => rfl
  | append_singleton us e ih =>
    rw [List.foldl_append, List.foldl_cons, List.foldl_nil]
    have hproj : (updateSourceHistory (us.foldl updateSourceHistory initialSourceRecord) e).history
        = truncHistory ((us.foldl updateSourceHistory initialSourceRecord).history ++ [e]) := rfl
    rw [hproj, ih, truncHistory]
    rcases Nat.lt_or_ge us.length 10 with hk | hk
    · have h1 : us.length - 10 = 0 := by omega
      rw [h1, List.drop_zero]
      rw [if_neg (by simp only [List.length_append, List.length_singleton]; omega)]
      have h2 : (us ++ [e]).length - 10 = 0 := by
        simp only [List.length_append, List.length_singleton]; omega
      rw [h2, List.drop_zero]
    · have hdlen : (us.drop (us.length - 10)).length = 10 := by
        rw [List.length_drop]; omega
      have hcond : 10 < (us.drop (us.length - 10) ++ [e]).length := by
        simp only [List.length_append, List.length_singleton, hdlen]; omega
      rw [if_pos hcond]
      have hidx : (us.drop (us.length - 10) ++ [e]).length - 10 = 1 := by
        simp only [List.length_append, List.length_singleton, hdlen]
      rw [hidx]
      have hle : (1 : ℕ) ≤ (us.drop (us.length - 10)).length := by omega
      rw [List.drop_append_of_le_length hle, List.drop_drop]
      have hle2 : (us ++ [e]).length - 10 ≤ us.length := by
        simp only [List.length_append, List.length_singleton]; omega
      rw [List.drop_append_of_le_length hle2]
      have : us.length - 10 + 1 = (us ++ [e]).length - 10 := by
        simp only [List.length_append, List.length_singleton]; omega
      rw [this]

theorem average_after_last_update (us : List HistoryEntry) (e : HistoryEntry) :
    ((us ++ [e]).foldl updateSourceHistory initialSourceRecord).average_credibility
      = ((((us ++ [e]).foldl updateSourceHistory initialSourceRecord).history).map
          (fun x => x.credibility_score)).sum
        / ((((us ++ [e]).foldl updateSourceHistory initialSourceRecord).history).length : ℚ) := by
  rw [List.foldl_append, List.foldl_cons, List.foldl_nil]
  rfl

/-- C1: starting from a fresh source record, after more than 10 updates via
`_update_source_history` the stored history holds exactly the 10 most recent
entries (the oldest are dropped), and the stored `average_credibility` is the
arithmetic mean of the `credibility_score` values of exactly those retained
entries. -/
theorem credibility_history_capped_and_average
    (entries : List HistoryEntry) (h : 10 < entries.length) :
    (entries.foldl updateSourceHistory initialSourceRecord).history
        = entries.drop (entries.length - 10) ∧
    (entries.foldl updateSourceHistory initialSourceRecord).history.length = 10 ∧
    (entries.foldl updateSourceHistory initialSourceRecord).average_credibility
        = ((entries.foldl updateSourceHistory initialSourceRecord).history.map
            (fun x => x.credibility_score)).sum / 10 := by
  have hh := history_after_foldl entries
  have hlen : (entries.foldl updateSourceHistory initialSourceRecord).history.length = 10 := by
    rw [hh, List.length_drop]; omega
  refine ⟨hh, hlen, ?_⟩
  obtain ⟨us, e, rfl⟩ : ∃ us e, entries = us ++ [e] := by
    rcases entries.eq_nil_or_concat with hnil | hcc
    · subst hnil; simp at h
    · obtain ⟨L, b, h2⟩ := hcc
      exact ⟨L, b, by rw [h2, List.concat_eq_append]⟩
  rw [average_after_last_update us e, hlen]
  norm_num

def witnessEntries : List HistoryEntry :=
  [⟨1/2, 1⟩, ⟨3/4, 2⟩, ⟨1/4, 0⟩, ⟨1, 3⟩, ⟨0, 1⟩, ⟨2/3, 2⟩,
   ⟨1/3, 1⟩, ⟨1/5, 4⟩, ⟨4/5, 1⟩, ⟨1/2, 2⟩, ⟨9/10, 1⟩]

/-- C1 witness: the capped-history theorem applied to a concrete run of 11
updates. -/
theorem credibility_history_capped_and_average_witness :
    10 < witnessEntries.length ∧
    ((witnessEntries.foldl updateSourceHistory initialSourceRecord).history
        = witnessEntries.drop (witnessEntries.length - 10) ∧
     (witnessEntries.foldl updateSourceHistory initialSourceRecord).history.length = 10 ∧
     (witnessEntries.foldl updateSourceHistory initialSourceRecord).average_credibility
        = ((witnessEntries.foldl updateSourceHistory initialSourceRecord).history.map
            (fun x => x.credibility_score)).sum / 10) :=
  ⟨by decide, credibility_history_capped_and_average witnessEntries (by decide)⟩

end Credibility

namespace Ingest

/-! Embedding of `rag/ingest.py` (`DocumentIngestor`): article validation,
document/chunk construction and the success/failure result of
`ingest_documents`.  The text splitter and the FAISS store are external
libraries; the splitter is a parameter `split`, and the outcomes of the
fallible store/disk steps are `Except` parameters. -/

/-- An input article dict.  `none` models an absent key or a `None`/empty
value source distinguishable by `some ""`. -/
structure Article where
  title : Option String
  description : Option String
  content : Option String
  source : Option String
  url : Option String
  published_at : Option String
  author : Option String
  summary : Option String
deriving DecidableEq, Repr

/-- `_validate_article` (lines 93-106): all five required fields present and
truthy, and the stripped content at least 50 characters long. -/
def validateArticle (a : Article) : Bool :=
  truthy a.title && truthy a.content && truthy a.source && truthy a.url &&
    truthy a.published_at && decide (50 ≤ pyLen (pyStrip (a.content.getD "")))

/-- `_create_metadata` (lines 108-117); `ingested_at` is the current time,
passed in as `now`. -/
structure DocMetadata where
  title : Option String
  source : Option String
  url : Option String
  published_at : Option String
  author : String
  ingested_at : String
deriving DecidableEq, Repr

def createMetadata (now : String) (a : Article) : DocMetadata :=
  { title := a.title, source := a.source, url := a.url,
    published_at := a.published_at, author := a.author.getD "Unknown",
    ingested_at := now }

/-- A langchain `Document`: page content plus metadata. -/
structure Document where
  page_content : String
  metadata : DocMetadata
deriving DecidableEq, Repr

/-- Lines 53-56: the `Document` built from a (valid) article. -/
def mkDocument (now : String) (a : Article) : Document :=
  { page_content := a.content.getD "", metadata := createMetadata now a }

/-- Lines 39-44: the validation loop accumulating `valid_articles`. -/
def validArticlesLoop (articles : List Article) : List Article :=
  articles.foldl (fun acc a => if validateArticle a then acc ++ [a] else acc) []

/-- Lines 51-57: the loop building `documents` from the valid articles. -/
def documentsLoop (now : String) (articles : List Article) : List Document :=
  articles.foldl (fun acc a => acc ++ [mkDocument now a]) []

/-- Lines 62-65: the loop extending `all_chunks` by each document's chunks. -/
def allChunksLoop (split : Document → List Document) (docs : List Document) : List Document :=
  docs.foldl (fun acc d => acc ++ split d) []

/-- The chunk list produced by one `ingest_documents` run. -/
def ingestChunks (split : Document → List Document) (now : String)
    (articles : List Article) : List Document :=
  allChunksLoop split (documentsLoop now (validArticlesLoop articles))

theorem validArticlesLoop_eq_filter (articles : List Article) :
    validArticlesLoop articles = articles.filter validateArticle := by
  unfold validArticlesLoop
  have hstep : (fun (acc : List Article) a => if validateArticle a then acc ++ [a] else acc)
      = fun acc a => acc ++ (if validateArticle a then [a] else []) := by
    funext acc a
    by_cases h : validateArticle a <;> simp [h]
  rw [hstep, foldl_append_eq_flatMap]
  induction articles with
  | nil => rfl
  | cons a l ih =>
    by_cases h : validateArticle a <;>
      simp_all [List.flatMap_cons, List.filter_cons, h]

theorem documentsLoop_eq_map (now : String) (articles : List Article) :
    documentsLoop now articles = articles.map (mkDocument now) := by
  unfold documentsLoop
  rw [foldl_append_eq_flatMap (fun a => [mkDocument now a])]
  rw [List.nil_append]
  induction articles with
  | nil => rfl
  | cons a l ih => simp_all [List.flatMap_cons]

theorem allChunksLoop_eq_flatMap (split : Document → List Document) (docs : List Document) :
    allChunksLoop split docs = docs.flatMap split := by
  unfold allChunksLoop
  rw [foldl_append_eq_flatMap]
  simp

/-- Validity can be read back off the built document: `mkDocument` keeps all
the fields `_validate_article` inspects. -/
def docValid (d : Document) : Bool :=
  truthy d.metadata.title && !d.page_content.data.isEmpty && truthy d.metadata.source &&
    truthy d.metadata.url && truthy d.metadata.published_at &&
    decide (50 ≤ pyLen (pyStrip d.page_content))

theorem validate_eq_docValid (now : String) (a : Article) :
    validateArticle a = docValid (mkDocument now a) := by
  simp only [validateArticle, docValid, mkDocument, createMetadata, truthy_eq_getD]

/-- C2: an article in the input of `ingest_documents` contributes to the
resulting `Document`/chunk set exactly when it passes `_validate_article`
(all five required fields truthy and stripped content at least 50
characters); invalid articles are excluded.  `split` is the text splitter,
assumed to return at least one chunk per document. -/
theorem ingest_document_set_iff_valid
    (split : Document → List Document) (hs : ∀ d, split d ≠ [])
    (now : String) (articles : List Article) (a : Article) (ha : a ∈ articles) :
    (validateArticle a = true ↔
        mkDocument now a ∈ documentsLoop now (validArticlesLoop articles)) ∧
    (validateArticle a = true →
        ∃ c, c ∈ ingestChunks split now articles ∧ c ∈ split (mkDocument now a)) := by
  have hd : documentsLoop now (validArticlesLoop articles)
      = (articles.filter validateArticle).map (mkDocument now) := by
    rw [validArticlesLoop_eq_filter, documentsLoop_eq_map]
  constructor
  · constructor
    · intro hval
      rw [hd]
      exact List.mem_map_of_mem _ (List.mem_filter.mpr ⟨ha, hval⟩)
    · intro hmem
      rw [hd] at hmem
      obtain ⟨b, hb, hba⟩ := List.mem_map.mp hmem
      have hbv : validateArticle b = true := (List.mem_filter.mp hb).2
      rw [validate_eq_docValid now a, ← hba, ← validate_eq_docValid now b]
      exact hbv
  · intro hval
    obtain ⟨c, hc⟩ := List.exists_mem_of_ne_nil (split (mkDocument now a)) (hs _)
    refine ⟨c, ?_, hc⟩
    unfold ingestChunks
    rw [allChunksLoop_eq_flatMap, hd]
    exact List.mem_flatMap.mpr
      ⟨mkDocument now a, List.mem_map_of_mem _ (List.mem_filter.mpr ⟨ha, hval⟩), hc⟩

def witnessArticle : Article :=
  { title := some "Quake update", description := some "desc",
    content := some ⟨List.replicate 60 'a'⟩, source := some "Reuters",
    url := some "http://example.com/a", published_at := some "2024-01-01",
    author := none, summary := none }

/-- C2 witness: the iff applied to a concrete valid article and the
identity splitter. -/
theorem ingest_document_set_iff_valid_witness :
    (∀ d : Document, [d] ≠ ([] : List Document)) ∧
    witnessArticle ∈ [witnessArticle] ∧
    ((validateArticle witnessArticle = true ↔
        mkDocument "t0" witnessArticle ∈ documentsLoop "t0" (validArticlesLoop [witnessArticle])) ∧
     (validateArticle witnessArticle = true →
        ∃ c, c ∈ ingestChunks (fun d => [d]) "t0" [witnessArticle] ∧
          c ∈ [mkDocument "t0" witnessArticle])) :=
  ⟨fun d => by simp, List.mem_singleton.mpr rfl,
    ingest_document_set_iff_valid (fun d => [d]) (fun d => by simp) "t0"
      [witnessArticle] witnessArticle (List.mem_singleton.mpr rfl)⟩

/-- `_save_ingestion_metadata` (lines 136-179): the side-file writes may
fail (`metaRes`), but the broad `except` at lines 178-179 only logs; the
failure never leaves the function.  Returns whether the side files were
written. -/
def saveIngestionMetadata : Except String Unit → Bool
  | Except.ok _ => true
  | Except.error _ => false

/-- `ingest_documents` (lines 29-91).  The fallible effects are passed as
outcomes: `storeCreated` is whether `_load_or_create_store` left a store,
`addRes` the embedding/`add_documents` call, `saveRes` the `save_local`
disk write, `metaRes` the metadata/summaries side-file writes.  An
`Except.error` in the `do`-block is an exception reaching the outer
`try`, which returns `False`. -/
def ingestDocuments (articles : List Article) (storeCreated : Bool)
    (addRes saveRes metaRes : Except String Unit) : Bool :=
  match (do
    if articles.isEmpty then pure false
    else if (validArticlesLoop articles).isEmpty then pure false
    else if storeCreated then do
      addRes
      saveRes
      let _ := saveIngestionMetadata metaRes
      pure true
    else pure false : Except String Bool) with
  | Except.ok b => b
  | Except.error _ => false

/-- C6 counterexample: a run in which writing the metadata/summary side
files fails (after the index was already persisted) still reports success,
because `_save_ingestion_metadata` swallows its own exceptions. -/
theorem ingest_metadata_failure_reports_success :
    ingestDocuments [witnessArticle] true (Except.ok ()) (Except.ok ())
        (Except.error "disk full") = true ∧
    saveIngestionMetadata (Except.error "disk full") = false := by
  exact ⟨by decide, rfl⟩

/-- C6 amended: `ingest_documents` reports success exactly when the input
is non-empty, some article validates, the store exists and the
`add_documents` and `save_local` steps succeed; a failure of any of those
steps aborts with `False`, but a failure writing the metadata/summary side
files is swallowed and does not affect the reported result. -/
theorem ingest_success_iff_core_steps
    (articles : List Article) (storeCreated : Bool)
    (addRes saveRes metaRes : Except String Unit) :
    ingestDocuments articles storeCreated addRes saveRes metaRes = true ↔
      (articles ≠ [] ∧ validArticlesLoop articles ≠ [] ∧ storeCreated = true ∧
        addRes = Except.ok () ∧ saveRes = Except.ok ()) := by
  unfold ingestDocuments
  by_cases h1 : articles.isEmpty
  · simp [h1, List.isEmpty_iff.mp h1, pure, Except.pure]
  · by_cases h2 : (validArticlesLoop articles).isEmpty
    · simp [h1, h2, List.isEmpty_iff.mp h2, pure, Except.pure,
        (List.isEmpty_iff (l := articles)).not.mp h1]
    · cases storeCreated
      · simp [h1, h2, pure, Except.pure,
          (List.isEmpty_iff (l := articles)).not.mp h1,
          (List.isEmpty_iff (l := validArticlesLoop articles)).not.mp h2]
      · cases addRes with
        | error e =>
          simp [h1, h2, pure, Except.pure, Bind.bind, Except.bind,
            (List.isEmpty_iff (l := articles)).not.mp h1,
            (List.isEmpty_iff (l := validArticlesLoop articles)).not.mp h2]
        | ok v =>
          cases saveRes with
          | error e =>
            simp [h1, h2, pure, Except.pure, Bind.bind, Except.bind,
              (List.isEmpty_iff (l := articles)).not.mp h1,
              (List.isEmpty_iff (l := validArticlesLoop articles)).not.mp h2]
          | ok w =>
            simp [h1, h2, pure, Except.pure, Bind.bind, Except.bind,
              (List.isEmpty_iff (l := articles)).not.mp h1,
              (List.isEmpty_iff (l := validArticlesLoop articles)).not.mp h2]

end Ingest

namespace Fetcher

/-! Embedding of `fetchers/newsapi_fetcher.py` (`NewsAPIFetcher`).  The HTTP
layer is modelled by the list of successive responses the server returns,
each a status code with a body; `_make_request` consumes one response per
request it issues. -/

inductive ReqOutcome where
  | ok (body : String)
  | error (msg : String)
deriving DecidableEq, Repr

/-- `_make_request` (lines 23-50): 401 raises, 429 sleeps 60 seconds and
retries the whole request (recursively, with no retry cap), any other
non-200 raises, 200 returns the body.  The first component counts the
requests issued; `ReqOutcome.error` is a raised exception. -/
def makeRequest : List (Nat × String) → Nat × ReqOutcome
  | [] => (0, ReqOutcome.error "no response")
  | (status, body) :: rest =>
    if status = 401 then
      (1, ReqOutcome.error "Invalid NewsAPI key. Please check your API key.")
    else if status = 429 then
      ((makeRequest rest).1 + 1, (makeRequest rest).2)
    else if status ≠ 200 then
      (1, ReqOutcome.error ("API request failed with status " ++ toString status))
    else (1, ReqOutcome.ok body)

/-- C3 counterexample: a server that answers 429 twice and then 200 makes
`_make_request` issue three requests for one logical call, so the
claimed "at most two requests" bound is false. -/
theorem make_request_can_issue_three_requests :
    ¬ ((makeRequest [(429, ""), (429, ""), (200, "ok")]).1 ≤ 2) := by decide

/-- C3 amended: on a 429 response `_make_request` sleeps 60 seconds and
retries, and it repeats this for every further 429: for any response
sequence containing a non-429 answer, the number of requests issued is the
number of leading 429 responses plus one — unbounded in general, not capped
at two. -/
theorem make_request_retries_until_non_429 (responses : List (Nat × String))
    (h : ∃ p ∈ responses, p.1 ≠ 429) :
    (makeRequest responses).1
      = (responses.takeWhile (fun p => p.1 == 429)).length + 1 := by
  induction responses with
  | nil => simp at h
  | cons p rest ih =>
    obtain ⟨st, body⟩ := p
    by_cases h429 : st = 429
    · subst h429
      have hrest : ∃ q ∈ rest, q.1 ≠ 429 := by
        rcases h with ⟨q, hq, hne⟩
        rcases List.mem_cons.mp hq with rfl | hmem
        · exact absurd rfl hne
        · exact ⟨q, hmem, hne⟩
      simp [makeRequest, List.takeWhile_cons, ih hrest]
    · by_cases h401 : st = 401 <;> by_cases h200 : st = 200 <;>
        simp [makeRequest, h429, h401, h200, List.takeWhile_cons]

/-- C3 witness: the amended retry count evaluated on a concrete 429-then-200
response sequence. -/
theorem make_request_retries_until_non_429_witness :
    (∃ p ∈ ([(429, "r"), (200, "ok")] : List (Nat × String)), p.1 ≠ 429) ∧
    (makeRequest [(429, "r"), (200, "ok")]).1
      = (([(429, "r"), (200, "ok")] : List (Nat × String)).takeWhile
          (fun p => p.1 == 429)).length + 1 :=
  ⟨by decide, make_request_retries_until_non_429 [(429, "r"), (200, "ok")] (by decide)⟩

/-- A raw article as returned by the NewsAPI JSON. -/
structure RawArticle where
  title : Option String
  description : Option String
  content : Option String
  url : Option String
  publishedAt : Option String
  sourceName : Option String
  author : Option String
  urlToImage : Option String
deriving DecidableEq, Repr

/-- A cleaned article as produced by `_clean_articles`. -/
structure CleanedArticle where
  title : String
  description : String
  content : String
  url : String
  published_at : String
  source : String
  author : String
  url_to_image : String
deriving DecidableEq, Repr

/-- One iteration of `_clean_articles` (lines 93-125): `none` when the
article is skipped (missing keys, falsy or removed content, too-short
combined text, or the per-article exception from `.strip()` on a null
field — all caught by the loop's `except ... continue`). -/
def cleanOne (a : RawArticle) : Option CleanedArticle :=
  match a.title, a.description, a.content with
  | some t, some d, some c =>
    if c.data.isEmpty || c = "[Removed]" then none
    else
      if pyLen (pyStrip (t ++ "\n\n" ++ d ++ "\n\n" ++ c)) < 100 then none
      else some { title := pyStrip t, description := pyStrip d,
                  content := t ++ "\n\n" ++ d ++ "\n\n" ++ c,
                  url := a.url.getD "", published_at := a.publishedAt.getD "",
                  source := a.sourceName.getD "Unknown",
                  author := a.author.getD "Unknown",
                  url_to_image := a.urlToImage.getD "" }
  | _, _, _ => none

/-- `_clean_articles` (lines 89-127): the accumulation loop. -/
def cleanArticles (articles : List RawArticle) : List CleanedArticle :=
  articles.foldl (fun acc a =>
    match cleanOne a with
    | some c => acc ++ [c]
    | none => acc) []

/-- The parsed JSON of a NewsAPI response body. -/
structure NewsData where
  status : String
  message : Option String
  articles : List RawArticle

/-- `fetch_news` (lines 52-87): calls `_make_request`; a raised exception is
logged and re-raised by the `except` block, a non-ok status raises, and
otherwise the cleaned articles are returned.  `parse` is the JSON decoding
of the response body. -/
def fetchNews (responses : List (Nat × String)) (parse : String → NewsData) :
    Except String (List CleanedArticle) :=
  match (makeRequest responses).2 with
  | ReqOutcome.error e => Except.error e
  | ReqOutcome.ok body =>
    if (parse body).status ≠ "ok" then
      Except.error ("NewsAPI error: " ++ ((parse body).message.getD "Unknown error"))
    else Except.ok (cleanArticles (parse body).articles)

theorem fetchNews_propagates_error (responses : List (Nat × String))
    (parse : String → NewsData) (e : String)
    (h : (makeRequest responses).2 = ReqOutcome.error e) :
    fetchNews responses parse = Except.error e := by
  unfold fetchNews
  rw [h]

end Fetcher

namespace Summarizer

/-! Embedding of `summarizer/summarizer.py` (`TextSummarizer`).  The HTTP
call to the local Ollama server is modelled by its outcome: a status code
with the `response` field of the returned JSON, a timeout, or a connection
error. -/

inductive HttpOutcome where
  | response (status : Nat) (responseField : String)
  | timeout
  | connectionError
deriving DecidableEq, Repr

/-- `_make_request` (lines 20-54): 404 raises a model-missing error, other
non-200 raises, timeouts and connection errors are re-raised as descriptive
exceptions, and a 200 response yields the stripped `response` field. -/
def makeRequest (out : HttpOutcome) (model : String) : Except String String :=
  match out with
  | HttpOutcome.timeout =>
      Except.error "Ollama request timeout. The model might be too slow or overloaded."
  | HttpOutcome.connectionError =>
      Except.error "Cannot connect to Ollama. Make sure it\x27s running."
  | HttpOutcome.response status responseField =>
      if status = 404 then
        Except.error ("Model \x27" ++ model ++ "\x27 not found. Please install it with: ollama pull " ++ model)
      else if status ≠ 200 then
        Except.error ("Ollama request failed with status " ++ toString status)
      else Except.ok (pyStrip responseField)

/-- `utils/validators.py`, `validate_summary_length`: stripped text at least
50 characters and raw length at most 10000. -/
def validateSummaryLength (text : String) : Bool :=
  if text.data.isEmpty || pyLen (pyStrip text) < 50 then false
  else pyLen text ≤ 10000

/-- Python `s[n:]` on strings. -/
def pyDropStr (s : String) (n : Nat) : String := ⟨s.data.drop n⟩

/-- Python `s.startswith(pre)`. -/
def pyStartsWith (s pre : String) : Bool := pre.data.isPrefixOf s.data

/-- `summarize_text` (lines 56-88): validates the input, calls
`_make_request`, and catches every exception, turning it into an
error-flagged string; an empty summary yields a fixed failure message, and
a leading `Summary:` tag is stripped. -/
def summarizeText (req : HttpOutcome) (model : String) (text : String) : String :=
  if !validateSummaryLength text then "Text too short or too long for summarization."
  else
    match makeRequest req model with
    | Except.error e => "Error generating summary: " ++ e
    | Except.ok summary =>
      if summary.data.isEmpty then "Failed to generate summary."
      else
        if pyStartsWith (pyStrip summary) "Summary:" then
          pyStrip (pyDropStr (pyStrip summary) 8)
        else pyStrip summary

/-- An article dict as seen by `summarize_articles`: only the `content` and
`summary` keys matter; `content = none` models a dict without that key, so
that `article["content"]` raises `KeyError`. -/
structure SArticle where
  title : Option String
  content : Option String
  summary : Option String
deriving DecidableEq, Repr

/-- The per-article body of the `summarize_articles` loop (lines 95-109):
the summary of the article's content on success, and the fixed failure
message when accessing `article["content"]` raises, caught by the
per-article `except`.  `summarize` stands for the `summarize_text` call
(a total function: `summarize_text` catches all its own exceptions). -/
def summarizeStep (summarize : String → String) (a : SArticle) : SArticle :=
  match a.content with
  | some c => { a with summary := some (summarize c) }
  | none => { a with summary := some "Failed to generate summary." }

/-- `summarize_articles` (lines 90-112): the accumulation loop. -/
def summarizeArticles (summarize : String → String) (articles : List SArticle) : List SArticle :=
  articles.foldl (fun acc a =>
    match a.content with
    | some c => acc ++ [{ a with summary := some (summarize c) }]
    | none => acc ++ [{ a with summary := some "Failed to generate summary." }]) []

theorem summarizeArticles_loop (summarize : String → String)
    (articles : List SArticle) (acc : List SArticle) :
    articles.foldl (fun acc a =>
      match a.content with
      | some c => acc ++ [{ a with summary := some (summarize c) }]
      | none => acc ++ [{ a with summary := some "Failed to generate summary." }]) acc
      = acc ++ articles.map (summarizeStep summarize) := by
  induction articles generalizing acc with
  | nil => simp
  | cons a l ih =>
    cases h : a.content with
    | none => simp [List.foldl, h, ih, summarizeStep]
    | some c => simp [List.foldl, h, ih, summarizeStep]

/-- C9: `summarize_articles` returns one article per input article, in
order: each output article is its input article with the `summary` field
set — to the generated summary when the content is present, and to the
fixed failure message when the per-article body raises; no article is
dropped and no failure aborts the rest. -/
theorem summarize_articles_total_in_order (summarize : String → String)
    (articles : List SArticle) :
    summarizeArticles summarize articles = articles.map (summarizeStep summarize) ∧
    (summarizeArticles summarize articles).length = articles.length ∧
    ∀ a ∈ summarizeArticles summarize articles, a.summary.isSome = true := by
  have hmap : summarizeArticles summarize articles
      = articles.map (summarizeStep summarize) := by
    unfold summarizeArticles
    rw [summarizeArticles_loop]
    simp
  refine ⟨hmap, by rw [hmap, List.length_map], ?_⟩
  intro a ha
  rw [hmap] at ha
  obtain ⟨b, _, rfl⟩ := List.mem_map.mp ha
  cases h : b.content <;> simp [summarizeStep, h]

end Summarizer

namespace Bias

/-! Embedding of `bias_detection/bias_analyzer.py`,
`_analyze_sentiment_bias` (lines 148-187).  Numeric results are modelled
with exact rational arithmetic. -/

/-- The fields of an article the sentiment analysis reads
(`article.get('content', '')` and `.get('title', '')`). -/
structure BArticle where
  title : String
  content : String
deriving DecidableEq, Repr

def positiveWords : List String :=
  ["positive", "good", "great", "excellent", "success", "win", "gain", "profit"]

def negativeWords : List String :=
  ["negative", "bad", "terrible", "failure", "loss", "decline", "crisis", "problem"]

/-- Line 162: `f"{title} {content}".lower()`. -/
def fullText (a : BArticle) : String := pyLower (a.title ++ " " ++ a.content)

/-- Line 168: `sum(1 for word in positive_words if word in full_text)`. -/
def positiveScore (a : BArticle) : Nat :=
  positiveWords.countP (fun w => pyIn w (fullText a))

/-- Line 169: the corresponding count over the negative keywords. -/
def negativeScore (a : BArticle) : Nat :=
  negativeWords.countP (fun w => pyIn w (fullText a))

/-- Lines 159-176: the counting loop; each article increments exactly one
of the positive / negative / neutral counters. -/
def sentimentCounts (articles : List BArticle) : Nat × Nat × Nat :=
  articles.foldl (fun c a =>
    if negativeScore a < positiveScore a then (c.1 + 1, c.2.1, c.2.2)
    else if positiveScore a < negativeScore a then (c.1, c.2.1 + 1, c.2.2)
    else (c.1, c.2.1, c.2.2 + 1)) (0, 0, 0)

structure SentimentBias where
  positive_ratio : ℚ
  negative_ratio : ℚ
  neutral_ratio : ℚ
  sentiment_bias_score : ℚ
deriving DecidableEq, Repr

/-- Lines 178-183: the returned ratio dictionary (0 on an empty input). -/
def analyzeSentimentBias (articles : List BArticle) : SentimentBias :=
  { positive_ratio :=
      if 0 < articles.length then ((sentimentCounts articles).1 : ℚ) / articles.length else 0
    negative_ratio :=
      if 0 < articles.length then ((sentimentCounts articles).2.1 : ℚ) / articles.length else 0
    neutral_ratio :=
      if 0 < articles.length then ((sentimentCounts articles).2.2 : ℚ) / articles.length else 0
    sentiment_bias_score :=
      if 0 < articles.length then
        (((sentimentCounts articles).1 : ℚ) - ((sentimentCounts articles).2.1 : ℚ))
          / articles.length
      else 0 }

theorem sentimentCounts_sum (articles : List BArticle) :
    (sentimentCounts articles).1 + (sentimentCounts articles).2.1
      + (sentimentCounts articles).2.2 = articles.length := by
  suffices h : ∀ acc : Nat × Nat × Nat,
      (articles.foldl (fun c a =>
        if negativeScore a < positiveScore a then (c.1 + 1, c.2.1, c.2.2)
        else if positiveScore a < negativeScore a then (c.1, c.2.1 + 1, c.2.2)
        else (c.1, c.2.1, c.2.2 + 1)) acc).1
      + (articles.foldl (fun c a =>
        if negativeScore a < positiveScore a then (c.1 + 1, c.2.1, c.2.2)
        else if positiveScore a < negativeScore a then (c.1, c.2.1 + 1, c.2.2)
        else (c.1, c.2.1, c.2.2 + 1)) acc).2.1
      + (articles.foldl (fun c a =>
        if negativeScore a < positiveScore a then (c.1 + 1, c.2.1, c.2.2)
        else if positiveScore a < negativeScore a then (c.1, c.2.1 + 1, c.2.2)
        else (c.1, c.2.1, c.2.2 + 1)) acc).2.2
      = acc.1 + acc.2.1 + acc.2.2 + articles.length by
    simpa using h (0, 0, 0)
  induction articles with
  | nil => intro acc; simp
  | cons a l ih =>
    intro acc
    by_cases h1 : negativeScore a < positiveScore a
    · simp only [List.foldl_cons, if_pos h1]
      rw [ih]; simp only [List.length_cons]; omega
    · by_cases h2 : positiveScore a < negativeScore a
      · simp only [List.foldl_cons, if_neg h1, if_pos h2]
        rw [ih]; simp only [List.length_cons]; omega
      · simp only [List.foldl_cons, if_neg h1, if_neg h2]
        rw [ih]; simp only [List.length_cons]; omega

/-- In the exact-rational idealization of the float arithmetic, the three
ratios always sum to 1 for a non-empty article list: each article lands in
exactly one bucket and each ratio is that bucket's count divided by the
article count.  The program computes the ratios with IEEE double division,
under which this sum can differ from 1.0 (see the failing-input evaluation
below). -/
theorem sentiment_ratios_sum_to_one (articles : List BArticle) (h : articles ≠ []) :
    (analyzeSentimentBias articles).positive_ratio
      + (analyzeSentimentBias articles).negative_ratio
      + (analyzeSentimentBias articles).neutral_ratio = 1 := by
  have hlen : 0 < articles.length := List.length_pos.mpr h
  have hsum := sentimentCounts_sum articles
  have hne : (articles.length : ℚ) ≠ 0 := by
    exact_mod_cast Nat.pos_iff_ne_zero.mp hlen
  simp only [analyzeSentimentBias, if_pos hlen]
  rw [div_add_div_same, div_add_div_same, div_eq_one_iff_eq hne]
  exact_mod_cast hsum

/-- Six articles classified into buckets (1, 4, 1): one positive-keyword
article, four negative, one with no sentiment keyword. -/
def failingBArticles : List BArticle :=
  [⟨"good", ""⟩, ⟨"bad", ""⟩, ⟨"bad", ""⟩, ⟨"bad", ""⟩, ⟨"bad", ""⟩, ⟨"plain", ""⟩]

/-- C8: evaluation of `_analyze_sentiment_bias` at the failing input, six
articles with bucket counts (1, 4, 1).  The exact values of the ratios are
1/6, 4/6 and 1/6, summing to exactly 1 in the rational arithmetic of this
embedding; the program computes these same ratios with IEEE double
division, where `1/6 + 4/6 + 1/6` evaluates to `1 - 2^-53`, not `1.0`. -/
theorem sentiment_ratios_failing_input_eval :
    sentimentCounts failingBArticles = (1, 4, 1) ∧
    failingBArticles.length = 6 ∧
    (analyzeSentimentBias failingBArticles).positive_ratio = 1/6 ∧
    (analyzeSentimentBias failingBArticles).negative_ratio = 4/6 ∧
    (analyzeSentimentBias failingBArticles).neutral_ratio = 1/6 ∧
    (analyzeSentimentBias failingBArticles).positive_ratio
      + (analyzeSentimentBias failingBArticles).negative_ratio
      + (analyzeSentimentBias failingBArticles).neutral_ratio = 1 := by
  have hc : sentimentCounts failingBArticles = (1, 4, 1) := by decide
  have hl : failingBArticles.length = 6 := by decide
  refine ⟨hc, hl, ?_, ?_, ?_, ?_⟩ <;>
    · simp only [analyzeSentimentBias, hc, hl]
      norm_num

end Bias

namespace RAGQuery

/-! Embedding of `rag/query.py` (`RAGQueryEngine.query`, lines 68-100).
The loaded QA chain is `none` when no vector index has been loaded;
otherwise it is the `invoke` call, whose own failure is an
`Except.error`.  An `Except.error` result of `query` itself would be an
exception escaping to the caller; the broad `except` at lines 98-100
converts every such failure into an error-flagged dictionary. -/

/-- A source entry of the result dictionary (lines 85-91). -/
structure SourceInfo where
  title : String
  source : String
  url : String
  published_at : String
  content_preview : String
deriving DecidableEq, Repr

/-- What `qa_chain.invoke` returns: the generated answer (if any) and the
retrieved source documents. -/
structure RawQAResult where
  result : Option String
  source_documents : List Ingest.Document

/-- Lines 83-91: the formatting of one retrieved document. -/
def formatSource (d : Ingest.Document) : SourceInfo :=
  { title := d.metadata.title.getD "Unknown"
    source := d.metadata.source.getD "Unknown"
    url := d.metadata.url.getD ""
    published_at := d.metadata.published_at.getD ""
    content_preview :=
      if 200 < pyLen d.page_content then ⟨d.page_content.data.take 200⟩ ++ "..."
      else d.page_content }

/-- The result dictionary of `query`: either an answer with sources, or an
error message (the not-loaded case and the caught-exception case). -/
structure QueryResult where
  answer : Option String
  sources : List SourceInfo
  error : Option String
deriving DecidableEq, Repr

def notLoadedMsg : String := "Knowledge base not loaded. Please fetch some articles first."

/-- `query` (lines 68-100) with exceptions made explicit: an `Except.ok` is
a normal return, an `Except.error` would be an exception escaping to the
caller.  Every branch, including a failing `invoke`, returns `Except.ok`. -/
def queryExc (qa_chain : Option (String → Except String RawQAResult))
    (question : String) : Except String QueryResult :=
  match qa_chain with
  | none => Except.ok { answer := none, sources := [], error := some notLoadedMsg }
  | some chain =>
    match chain question with
    | Except.error e =>
        Except.ok { answer := none, sources := [], error := some ("Query failed: " ++ e) }
    | Except.ok raw =>
        Except.ok { answer := some (raw.result.getD "No answer generated")
                    sources := raw.source_documents.map formatSource
                    error := none }

/-- C4: with no QA chain loaded, `query` returns the explicit not-loaded
error dictionary; and for every state and question `query` returns a
result dictionary — no branch lets an exception escape to the caller. -/
theorem query_not_loaded_and_never_raises
    (qa_chain : Option (String → Except String RawQAResult)) (question : String) :
    (qa_chain = none →
      queryExc qa_chain question
        = Except.ok { answer := none, sources := [], error := some notLoadedMsg }) ∧
    (∃ r : QueryResult, queryExc qa_chain question = Except.ok r) := by
  constructor
  · intro h
    subst h
    rfl
  · cases qa_chain with
    | none => exact ⟨_, rfl⟩
    | some chain =>
      cases h : chain question with
      | error e =>
        exact ⟨{ answer := none, sources := [],
                 error := some ("Query failed: " ++ e) }, by simp [queryExc, h]⟩
      | ok raw =>
        exact ⟨{ answer := some (raw.result.getD "No answer generated")
                 sources := raw.source_documents.map formatSource
                 error := none }, by simp [queryExc, h]⟩

/-- C4 witness: the theorem applied to the fresh engine state (no chain)
and a concrete question. -/
theorem query_not_loaded_and_never_raises_witness :
    ((none : Option (String → Except String RawQAResult)) = none →
      queryExc none "What happened today?"
        = Except.ok { answer := none, sources := [], error := some notLoadedMsg }) ∧
    (∃ r : QueryResult, queryExc (none : Option (String → Except String RawQAResult))
        "What happened today?" = Except.ok r) :=
  query_not_loaded_and_never_raises none "What happened today?"

end RAGQuery

namespace Store

/-! Embedding of the store lifecycle: `clear_vector_store`
(`rag/ingest.py`, lines 181-206) and `_load_vector_store`
(`rag/query.py`, lines 43-66).  The file system is the list of existing
paths; the store directory is one atomic path (`os.path.exists` checks
exactly it, `shutil.rmtree` removes exactly it). -/

/-- `Config.VECTOR_STORE_PATH` default. -/
def storePath : String := "data/faiss_store"

/-- The metadata files removed by `clear_vector_store` (lines 192-195). -/
def metadataFiles : List String :=
  ["data/ingestion_metadata.json", "data/langchain_metadata.json"]

abbrev FS := List String

/-- Lines 197-200: `if os.path.exists(file_path): os.remove(file_path)`. -/
def removeIfExists (fs : FS) (p : String) : FS :=
  if p ∈ fs then fs.filter (fun q => decide (q ≠ p)) else fs

/-- `clear_vector_store` (lines 181-206): remove the store directory if it
exists, then each metadata file that exists, and return `True`. -/
def clearVectorStore (fs : FS) : FS × Bool :=
  (metadataFiles.foldl removeIfExists
    (if storePath ∈ fs then fs.filter (fun q => decide (q ≠ storePath)) else fs), true)

/-- The mutable state of `RAGQueryEngine` that `_load_vector_store`
touches: the loaded store and the QA chain built from it. -/
structure Engine where
  store : Option String
  qa_chain : Option String
deriving DecidableEq, Repr

inductive LoadReport where
  | notFound
  | loaded
  | failed
deriving DecidableEq, Repr

/-- `_load_vector_store` (lines 43-66): if the store path does not exist it
logs "not found" and returns, leaving the engine fields untouched;
otherwise it loads the store (`loadLocal`) and builds the QA chain
(`mkChain`), each of which may raise into the broad `except`. -/
def loadVectorStore (fs : FS) (loadLocal : Except String String)
    (mkChain : String → Except String String) (e : Engine) : Engine × LoadReport :=
  if storePath ∈ fs then
    match loadLocal with
    | Except.error _ => (e, LoadReport.failed)
    | Except.ok s =>
      match mkChain s with
      | Except.error _ => ({ e with store := some s }, LoadReport.failed)
      | Except.ok c => ({ store := some s, qa_chain := some c }, LoadReport.loaded)
  else (e, LoadReport.notFound)

theorem not_mem_removeIfExists_self (fs : FS) (p : String) : p ∉ removeIfExists fs p := by
  unfold removeIfExists
  by_cases h : p ∈ fs
  · rw [if_pos h]
    intro hmem
    have := List.mem_filter.mp hmem
    simp at this
  · rw [if_neg h]
    exact h

theorem not_mem_removeIfExists (fs : FS) (p q : String) (h : q ∉ fs) :
    q ∉ removeIfExists fs p := by
  unfold removeIfExists
  by_cases hp : p ∈ fs
  · rw [if_pos hp]
    intro hmem
    exact h (List.mem_filter.mp hmem).1
  · rw [if_neg hp]
    exact h

theorem removeIfExists_not_mem_eq (fs : FS) (p : String) (h : p ∉ fs) :
    removeIfExists fs p = fs := by
  unfold removeIfExists
  rw [if_neg h]

theorem clear_removes_all (fs : FS) :
    storePath ∉ (clearVectorStore fs).1 ∧ ∀ m ∈ metadataFiles, m ∉ (clearVectorStore fs).1 := by
  have hfold : (clearVectorStore fs).1
      = removeIfExists (removeIfExists
          (if storePath ∈ fs then fs.filter (fun q => decide (q ≠ storePath)) else fs)
          "data/ingestion_metadata.json") "data/langchain_metadata.json" := rfl
  have hsp : storePath ∉
      (if storePath ∈ fs then fs.filter (fun q => decide (q ≠ storePath)) else fs) := by
    by_cases h : storePath ∈ fs
    · rw [if_pos h]
      intro hmem
      have := List.mem_filter.mp hmem
      simp at this
    · rw [if_neg h]
      exact h
  constructor
  · rw [hfold]
    exact not_mem_removeIfExists _ _ _ (not_mem_removeIfExists _ _ _ hsp)
  · intro m hm
    rcases List.mem_cons.mp hm with rfl | hm2
    · rw [hfold]
      exact not_mem_removeIfExists _ _ _ (not_mem_removeIfExists_self _ _)
    · rcases List.mem_singleton.mp hm2 with rfl
      rw [hfold]
      exact not_mem_removeIfExists_self _ _

/-- C5 counterexample: on an engine that had already loaded the store,
clearing the on-disk store and re-running the load step reports "not
found" but leaves the stale loaded store in the engine — the engine is not
left with "no loaded store" as claimed. -/
theorem clear_then_load_keeps_stale_store :
    ((loadVectorStore (clearVectorStore [storePath]).1 (Except.ok "S2")
        (fun _ => Except.ok "C2") { store := some "S1", qa_chain := some "C1" }).2
      = LoadReport.notFound) ∧
    ((loadVectorStore (clearVectorStore [storePath]).1 (Except.ok "S2")
        (fun _ => Except.ok "C2") { store := some "S1", qa_chain := some "C1" }).1.store
      = some "S1") := by
  exact ⟨by decide, by decide⟩

/-- C5 amended: after `clear_vector_store` succeeds, the index directory
and both metadata files no longer exist, and a subsequent
`_load_vector_store` reports the store as not found and leaves the engine
state exactly as it was — in particular, an engine that had no loaded
store still has none. -/
theorem clear_then_load_reports_not_found
    (fs : FS) (loadLocal : Except String String)
    (mkChain : String → Except String String) (e : Engine) :
    (clearVectorStore fs).2 = true ∧
    storePath ∉ (clearVectorStore fs).1 ∧
    (∀ m ∈ metadataFiles, m ∉ (clearVectorStore fs).1) ∧
    loadVectorStore (clearVectorStore fs).1 loadLocal mkChain e = (e, LoadReport.notFound) ∧
    (e.store = none →
      (loadVectorStore (clearVectorStore fs).1 loadLocal mkChain e).1.store = none) := by
  obtain ⟨hsp, hmeta⟩ := clear_removes_all fs
  have hload : loadVectorStore (clearVectorStore fs).1 loadLocal mkChain e
      = (e, LoadReport.notFound) := by
    unfold loadVectorStore
    rw [if_neg hsp]
  refine ⟨rfl, hsp, hmeta, hload, ?_⟩
  intro hstore
  rw [hload]
  exact hstore

/-- C5 witness: the amended statement evaluated on a concrete file system
holding the store, a metadata file and an unrelated file, with a fresh
engine. -/
theorem clear_then_load_reports_not_found_witness :
    (clearVectorStore [storePath, "data/ingestion_metadata.json", "notes.txt"]).2 = true ∧
    storePath ∉ (clearVectorStore [storePath, "data/ingestion_metadata.json", "notes.txt"]).1 ∧
    (∀ m ∈ metadataFiles,
      m ∉ (clearVectorStore [storePath, "data/ingestion_metadata.json", "notes.txt"]).1) ∧
    loadVectorStore (clearVectorStore [storePath, "data/ingestion_metadata.json", "notes.txt"]).1
        (Except.ok "S") (fun _ => Except.ok "C") { store := none, qa_chain := none }
      = ({ store := none, qa_chain := none }, LoadReport.notFound) ∧
    (({ store := none, qa_chain := none } : Engine).store = none →
      (loadVectorStore
          (clearVectorStore [storePath, "data/ingestion_metadata.json", "notes.txt"]).1
          (Except.ok "S") (fun _ => Except.ok "C")
          { store := none, qa_chain := none }).1.store = none) :=
  clear_then_load_reports_not_found [storePath, "data/ingestion_metadata.json", "notes.txt"]
    (Except.ok "S") (fun _ => Except.ok "C") { store := none, qa_chain := none }

/-- C10: on a file system `fs` where the store directory and both metadata
files are absent, `clear_vector_store` deletes nothing and still returns
`True`; and from any starting state `gs` — store present or not — running
`clear_vector_store` twice in a row returns `True` both times and leaves
the same file system as running it once. -/
theorem clear_vector_store_idempotent (fs gs : FS)
    (h : storePath ∉ fs ∧ ∀ m ∈ metadataFiles, m ∉ fs) :
    clearVectorStore fs = (fs, true) ∧
    (clearVectorStore gs).2 = true ∧
    clearVectorStore (clearVectorStore gs).1 = ((clearVectorStore gs).1, true) := by
  have noop : ∀ g : FS, storePath ∉ g → (∀ m ∈ metadataFiles, m ∉ g) →
      clearVectorStore g = (g, true) := by
    intro g hsp hmeta
    unfold clearVectorStore
    rw [if_neg hsp]
    rw [show metadataFiles.foldl removeIfExists g
        = removeIfExists (removeIfExists g "data/ingestion_metadata.json")
            "data/langchain_metadata.json" from rfl]
    rw [removeIfExists_not_mem_eq g _ (hmeta _ (by simp [metadataFiles]))]
    rw [removeIfExists_not_mem_eq g _ (hmeta _ (by simp [metadataFiles]))]
  obtain ⟨hsp2, hmeta2⟩ := clear_removes_all gs
  exact ⟨noop fs h.1 h.2, rfl, noop _ hsp2 hmeta2⟩

/-- C10 witness: the no-op on a storeless file system, and idempotence from
a concrete state that does hold the store and a metadata file. -/
theorem clear_vector_store_idempotent_witness :
    (storePath ∉ ["notes.txt"] ∧ ∀ m ∈ metadataFiles, m ∉ ["notes.txt"]) ∧
    (clearVectorStore ["notes.txt"] = (["notes.txt"], true) ∧
     (clearVectorStore [storePath, "data/ingestion_metadata.json", "notes.txt"]).2 = true ∧
     clearVectorStore
        (clearVectorStore [storePath, "data/ingestion_metadata.json", "notes.txt"]).1
        = ((clearVectorStore [storePath, "data/ingestion_metadata.json", "notes.txt"]).1,
           true)) :=
  ⟨by decide, clear_vector_store_idempotent ["notes.txt"]
      [storePath, "data/ingestion_metadata.json", "notes.txt"] (by decide)⟩

end Store

namespace Credibility

/-! The catch wrapper of `score_source_credibility`
(`credibility_scorer.py`, lines 44-89), for the error-handling claim. -/

/-- The dictionary returned by `score_source_credibility`: the report of
lines 75-83, or the `{"error": str(e)}` dictionary built by the broad
`except` at lines 87-89. -/
inductive CredResult where
  | report (source : String) (overall_credibility : ℚ) (credibility_level : String)
      (base_reputation : ℚ) (recent_performance : ℚ) (consistency_score : ℚ)
      (recommendations : List String)
  | error (msg : String)
deriving DecidableEq, Repr

/-- `_calculate_overall_credibility` (lines 248-262): weighted average of
the three sub-scores, capped at 1 (its own `except` cannot fire: the body
is plain arithmetic). -/
def calculateOverallCredibility (base performance consistency : ℚ) : ℚ :=
  min (base * (4/10) + performance * (4/10) + consistency * (2/10)) 1

/-- `_classify_credibility_level` (lines 264-275). -/
def classifyCredibilityLevel (score : ℚ) : String :=
  if 8/10 ≤ score then "Very High"
  else if 6/10 ≤ score then "High"
  else if 4/10 ≤ score then "Medium"
  else if 2/10 ≤ score then "Low"
  else "Very Low"

/-- `_generate_credibility_recommendations` (lines 319-345); the `source`
argument is unused by its body. -/
def generateCredibilityRecommendations (score : ℚ) : List String :=
  (if 8/10 ≤ score then
    ["✅ High credibility source - generally reliable",
     "📖 Good source for primary information"]
  else if 6/10 ≤ score then
    ["⚠️ Moderate credibility - verify important claims",
     "📖 Use as supplementary source"]
  else if 4/10 ≤ score then
    ["⚠️ Low credibility - fact-check claims",
     "🔍 Cross-reference with high-credibility sources"]
  else
    ["❌ Very low credibility - avoid as primary source",
     "🔍 Always fact-check claims from this source"])
  ++ ["📚 Read multiple sources for balanced perspective",
      "🔍 Fact-check important claims regardless of source"]

/-- `score_source_credibility` (lines 44-89): the try-body computes the
base/performance/consistency sub-scores (each internally total — they catch
their own errors) and updates the source history; `scores` is the outcome
of that body, and the broad `except` at lines 87-89 turns any exception it
raises into the `{"error": str(e)}` result instead of letting it escape. -/
def scoreSourceCredibility (source : String)
    (scores : Except String (ℚ × ℚ × ℚ)) : CredResult :=
  match scores with
  | Except.error e => CredResult.error e
  | Except.ok (base, performance, consistency) =>
      CredResult.report source
        (calculateOverallCredibility base performance consistency)
        (classifyCredibilityLevel (calculateOverallCredibility base performance consistency))
        base performance consistency
        (generateCredibilityRecommendations
          (calculateOverallCredibility base performance consistency))

end Credibility

/-! C7: the spec claims a uniform catch-and-return-error pattern across all
operations.  The operations returning result objects or success flags
(`query`, `summarize_text`, `score_source_credibility`, `ingest_documents`)
do catch the exceptions of their bodies, but the HTTP helpers
(`_make_request` in both the fetcher and the summarizer) and `fetch_news`
re-raise exceptions to their callers. -/

def trivialParse : String → Fetcher.NewsData :=
  fun _ => { status := "ok", message := none, articles := [] }

def sampleLongText : String := ⟨List.replicate 60 'a'⟩

theorem ingest_add_failure_returns_false (articles : List Ingest.Article)
    (storeCreated : Bool) (saveRes metaRes : Except String Unit) (e : String) :
    Ingest.ingestDocuments articles storeCreated (Except.error e) saveRes metaRes = false := by
  unfold Ingest.ingestDocuments
  by_cases h1 : articles.isEmpty
  · simp [h1, pure, Except.pure]
  · by_cases h2 : (Ingest.validArticlesLoop articles).isEmpty
    · simp [h1, h2, pure, Except.pure]
    · cases storeCreated
      · simp [h1, h2, pure, Except.pure]
      · simp [h1, h2, pure, Except.pure, Bind.bind, Except.bind]

theorem ingest_save_failure_returns_false (articles : List Ingest.Article)
    (storeCreated : Bool) (metaRes : Except String Unit) (e : String) :
    Ingest.ingestDocuments articles storeCreated (Except.ok ()) (Except.error e) metaRes
      = false := by
  unfold Ingest.ingestDocuments
  by_cases h1 : articles.isEmpty
  · simp [h1, pure, Except.pure]
  · by_cases h2 : (Ingest.validArticlesLoop articles).isEmpty
    · simp [h1, h2, pure, Except.pure]
    · cases storeCreated
      · simp [h1, h2, pure, Except.pure]
      · simp [h1, h2, pure, Except.pure, Bind.bind, Except.bind]

/-- C7 counterexample: three operations that propagate exceptions to their
callers rather than returning an error-flagged result or safe default: the
summarizer `_make_request` re-raises a timeout, the fetcher `_make_request`
raises on a 500 response, and `fetch_news` re-raises that exception. -/
theorem operations_propagating_exceptions :
    Summarizer.makeRequest Summarizer.HttpOutcome.timeout "mistral"
      = Except.error "Ollama request timeout. The model might be too slow or overloaded." ∧
    (Fetcher.makeRequest [(500, "")]).2
      = Fetcher.ReqOutcome.error "API request failed with status 500" ∧
    Fetcher.fetchNews [(500, "")] trivialParse
      = Except.error "API request failed with status 500" := by
  refine ⟨rfl, by decide, ?_⟩
  exact Fetcher.fetchNews_propagates_error [(500, "")] trivialParse _ (by decide)

/-- C7 amended: the operations that return result objects or success flags
catch the exceptions of their bodies — `query` and `score_source_credibility`
return error-flagged dictionaries, `summarize_text` an error-flagged string,
and `ingest_documents` its `False` failure default, whichever core step
raised — but the HTTP request helpers (`_make_request` in both the fetcher
and the summarizer) and `fetch_news` propagate exceptions to their
callers. -/
theorem error_handling_catch_and_propagate
    (qa_chain : Option (String → Except String RAGQuery.RawQAResult)) (q : String)
    (req : Summarizer.HttpOutcome) (model text msg : String)
    (source msg3 : String)
    (articles : List Ingest.Article) (storeCreated : Bool)
    (saveRes metaRes : Except String Unit) (msg4 msg5 : String)
    (responses : List (Nat × String)) (parse : String → Fetcher.NewsData) (msg2 : String)
    (hreq : Summarizer.makeRequest req model = Except.error msg)
    (htext : Summarizer.validateSummaryLength text = true)
    (hresp : (Fetcher.makeRequest responses).2 = Fetcher.ReqOutcome.error msg2) :
    (∃ r, RAGQuery.queryExc qa_chain q = Except.ok r) ∧
    Summarizer.summarizeText req model text = "Error generating summary: " ++ msg ∧
    Credibility.scoreSourceCredibility source (Except.error msg3)
      = Credibility.CredResult.error msg3 ∧
    Ingest.ingestDocuments articles storeCreated (Except.error msg4) saveRes metaRes
      = false ∧
    Ingest.ingestDocuments articles storeCreated (Except.ok ()) (Except.error msg5) metaRes
      = false ∧
    Fetcher.fetchNews responses parse = Except.error msg2 := by
  refine ⟨?_, ?_, rfl,
    ingest_add_failure_returns_false articles storeCreated saveRes metaRes msg4,
    ingest_save_failure_returns_false articles storeCreated metaRes msg5,
    Fetcher.fetchNews_propagates_error responses parse msg2 hresp⟩
  · cases qa_chain with
    | none => exact ⟨_, rfl⟩
    | some chain =>
      cases h : chain q with
      | error e =>
        exact ⟨{ answer := none, sources := [],
                 error := some ("Query failed: " ++ e) }, by simp [RAGQuery.queryExc, h]⟩
      | ok raw =>
        exact ⟨{ answer := some (raw.result.getD "No answer generated")
                 sources := raw.source_documents.map RAGQuery.formatSource
                 error := none }, by simp [RAGQuery.queryExc, h]⟩
  · unfold Summarizer.summarizeText
    rw [htext, hreq]
    simp

/-- C7 amended witness: the mixed catch/propagate behaviour evaluated at a
fresh engine, a timing-out summarizer call on a long text, a failing
credibility-score body, failing ingestion steps, and a 500 response from
the news API. -/
theorem error_handling_catch_and_propagate_witness :
    (Summarizer.makeRequest Summarizer.HttpOutcome.timeout "mistral"
      = Except.error "Ollama request timeout. The model might be too slow or overloaded.") ∧
    Summarizer.validateSummaryLength sampleLongText = true ∧
    ((Fetcher.makeRequest [(500, "")]).2
      = Fetcher.ReqOutcome.error "API request failed with status 500") ∧
    ((∃ r, RAGQuery.queryExc (none : Option (String → Except String RAGQuery.RawQAResult))
        "What happened?" = Except.ok r) ∧
     Summarizer.summarizeText Summarizer.HttpOutcome.timeout "mistral" sampleLongText
      = "Error generating summary: "
          ++ "Ollama request timeout. The model might be too slow or overloaded." ∧
     Credibility.scoreSourceCredibility "Reuters" (Except.error "boom")
      = Credibility.CredResult.error "boom" ∧
     Ingest.ingestDocuments [Ingest.witnessArticle] true (Except.error "disk")
        (Except.ok ()) (Except.ok ()) = false ∧
     Ingest.ingestDocuments [Ingest.witnessArticle] true (Except.ok ())
        (Except.error "disk") (Except.ok ()) = false ∧
     Fetcher.fetchNews [(500, "")] trivialParse
      = Except.error "API request failed with status 500") :=
  ⟨rfl, by decide, by decide,
    error_handling_catch_and_propagate none "What happened?"
      Summarizer.HttpOutcome.timeout "mistral" sampleLongText
      "Ollama request timeout. The model might be too slow or overloaded."
      "Reuters" "boom" [Ingest.witnessArticle] true (Except.ok ()) (Except.ok ())
      "disk" "disk" [(500, "")] trivialParse "API request failed with status 500"
      rfl (by decide) (by decide)⟩
